import Mathlib

/-!
# Verification of the vector-task fault-injection harness and container contract

Shallow embedding of the repository `CPP-KT/vector-task`.

The fault-injection harness (`src/test/fault-injection.cpp`) is embedded
faithfully: `FaultInjectionContext` and the transition performed by
`should_inject_fault`, the catch handler and driving loop of `faulty_run`,
the `FaultInjectionDisable` guard, and the global allocation hooks.

The container `ct::Vector` is only declared in `src/src/vector.h`
(documentation comments and a `static_assert`); its member definitions are
absent from the repository snapshot, so the operations needed by the
container claims are modelled from the specification text and are marked
as such in their doc comments.
-/

namespace VectorTask


/-- Embeds `FaultInjectionContext` from `src/test/fault-injection.cpp`:
`skip_ranges` (a `std::vector<size_t>`), `error_index`, `skip_index` and
`fault_registered`. -/
structure FaultInjectionContext where
  skip_ranges : List Nat
  error_index : Nat
  skip_index : Nat
  fault_registered : Bool
deriving DecidableEq, Repr

/-- The context `faulty_run` starts from: `FaultInjectionContext ctx;` with
its default member initializers (empty `skip_ranges`, both indices `0`,
`fault_registered = false`). -/
def initialContext : FaultInjectionContext :=
  { skip_ranges := [], error_index := 0, skip_index := 0, fault_registered := false }

/-- The transition `ct::test::should_inject_fault` performs on the context
when a context is installed and `disabled` is `false` (the two early-return
guards are handled in `should_inject_fault_full` below).  Returns the value
returned by the C++ function (`true` = inject a fault now) together with the
updated context.  The read `skip_ranges[error_index]` is embedded with
`List.getD` (default `0`); on every state satisfying the function's own
`assert`s (`error_index ≤ skip_ranges.size`, proved an invariant below) the
default is never consulted, matching the defined behaviour of the C++. -/
def should_inject_fault_ctx (c : FaultInjectionContext) : Bool × FaultInjectionContext :=
  if c.error_index = c.skip_ranges.length then
    -- `++context->error_index; context->skip_ranges.push_back(0);
    --  context->fault_registered = true; return true;`
    (true, { c with
      error_index := c.error_index + 1,
      skip_ranges := c.skip_ranges ++ [0],
      fault_registered := true })
  else if c.skip_index = c.skip_ranges.getD c.error_index 0 then
    -- `++context->error_index; context->skip_index = 0;
    --  context->fault_registered = true; return true;`
    (true, { c with
      error_index := c.error_index + 1,
      skip_index := 0,
      fault_registered := true })
  else
    -- `++context->skip_index; return false;`
    (false, { c with skip_index := c.skip_index + 1 })

/-- Embeds `std::vector::resize(n)`: truncate to `n` if shrinking, pad with
value-initialized (`0`) entries if growing. -/
def resizeList (l : List Nat) (n : Nat) : List Nat :=
  l.take n ++ List.replicate (n - l.length) 0

/-- The body of the `catch (...)` handler of `ct::test::faulty_run`:
`skip_ranges.resize(error_index); ++skip_ranges.back();
error_index = 0; skip_index = 0; assert(fault_registered);
fault_registered = false;`.
`none` models the two ways the handler can fail to complete normally:
`back()` on an empty vector (undefined behaviour, checked *before* the
assert, in source order) and the `assert(fault_registered)` failing. -/
def faultyRunCatch (c : FaultInjectionContext) : Option FaultInjectionContext :=
  let sr := resizeList c.skip_ranges c.error_index
  match sr.getLast? with
  | none => none
  | some last =>
    if c.fault_registered then
      some { skip_ranges := sr.dropLast ++ [last + 1],
             error_index := 0, skip_index := 0, fault_registered := false }
    else none

/-- The skip-list produced by the catch handler before the assert check,
used to state where the `back()` access would be undefined. -/
def faultyRunCatchList (c : FaultInjectionContext) : List Nat :=
  resizeList c.skip_ranges c.error_index

/-- Contexts arising inside one activation of `faulty_run`: the fresh
context it installs, every state produced by a call to
`should_inject_fault` while the context is installed and injection is
enabled, and every state produced by the catch handler. -/
inductive ReachableCtx : FaultInjectionContext → Prop
  | init : ReachableCtx initialContext
  | step (c : FaultInjectionContext) :
      ReachableCtx c → ReachableCtx (should_inject_fault_ctx c).2
  | handler (c c' : FaultInjectionContext) :
      ReachableCtx c → faultyRunCatch c = some c' → ReachableCtx c'

/-- The invariant asserted by `should_inject_fault` itself, plus the fact
that a registered fault implies at least one fault fired this pass. -/
def CtxInv (c : FaultInjectionContext) : Prop :=
  c.error_index ≤ c.skip_ranges.length ∧
  (c.error_index < c.skip_ranges.length →
    c.skip_index ≤ c.skip_ranges.getD c.error_index 0) ∧
  (c.fault_registered = true → 1 ≤ c.error_index)

/-- One pass of an operation `f` that performs a fixed sequence of `n`
fault-injection checks (each check calls `should_inject_fault`; if the
check returns `true` the operation throws, aborting the pass).  The result
is `(some j, c')` when the pass threw at its `j`-th check (1-based) and
`(none, c')` when all `n` checks declined to fire and `f` completed. -/
def runChecks : Nat → FaultInjectionContext → Option Nat × FaultInjectionContext
  | 0, c => (none, c)
  | n + 1, c =>
    let r := should_inject_fault_ctx c
    if r.1 then (some 1, r.2)
    else
      let rest := runChecks n r.2
      (rest.1.map (· + 1), rest.2)

/-- The driving loop of `ct::test::faulty_run`, for an operation performing
a fixed sequence of `k` checks per pass, with explicit fuel.  A returned
`some trace` means the loop terminated normally; `trace` records, pass by
pass, `some j` when the pass threw at its `j`-th check and `none` when it
completed.  `none` covers fuel exhaustion, undefined behaviour in the catch
handler and the two asserts (`fault_registered` after a throw,
`!fault_registered` after a completed pass). -/
def faultyRunTrace (k : Nat) : Nat → FaultInjectionContext → Option (List (Option Nat))
  | 0, _ => none
  | fuel + 1, c =>
    match runChecks k c with
    | (none, c') => if c'.fault_registered then none else some [none]
    | (some j, c') =>
      match faultyRunCatch c' with
      | none => none
      | some c'' => (faultyRunTrace k fuel c'').map (fun t => some j :: t)

/-- The context at the start of every pass after the first: the single
entry `skip_ranges = [j]` allows `j` successes before failing. -/
def passStart (j : Nat) : FaultInjectionContext :=
  { skip_ranges := [j], error_index := 0, skip_index := 0, fault_registered := false }

/-- Runs `n` consecutive calls to `should_inject_fault` within one pass
(scheduler active, injection enabled): the list of returned values in call
order, and the context afterwards. -/
def sifCalls : Nat → FaultInjectionContext → List Bool × FaultInjectionContext
  | 0, c => ([], c)
  | n + 1, c =>
    let r := should_inject_fault_ctx c
    let rest := sifCalls n r.2
    (r.1 :: rest.1, rest.2)

/-- A call on context `c` is "treated as a newly discovered failure point":
it returns `true`, appends a `0` entry to `skip_ranges` (records it), and
sets `fault_registered` — the first branch of `should_inject_fault`. -/
def TreatedAsNewFailurePoint (c : FaultInjectionContext) : Prop :=
  (should_inject_fault_ctx c).1 = true ∧
  (should_inject_fault_ctx c).2.skip_ranges = c.skip_ranges ++ [0] ∧
  (should_inject_fault_ctx c).2.fault_registered = true

instance (c : FaultInjectionContext) : Decidable (TreatedAsNewFailurePoint c) :=
  inferInstanceAs (Decidable (_ ∧ _ ∧ _))

/-- The full thread-local state of the harness
(`src/test/fault-injection.cpp`): `thread_local bool disabled` and
`thread_local FaultInjectionContext* context`. -/
structure ThreadState where
  disabled : Bool
  context : Option FaultInjectionContext
deriving DecidableEq, Repr

/-- Embeds `ct::test::should_inject_fault` in full: returns `false` without
touching anything when no context is installed or `disabled` is set;
otherwise performs the context transition. -/
def should_inject_fault_full (s : ThreadState) : Bool × ThreadState :=
  match s.context with
  | none => (false, s)
  | some c =>
    if s.disabled then (false, s)
    else
      let r := should_inject_fault_ctx c
      (r.1, { s with context := some r.2 })

/-- Embeds `FaultInjectionDisable::FaultInjectionDisable()`: saves `disabled` into
`was_disabled` (the returned `Bool`) and sets `disabled = true`. -/
def faultInjectionDisableCtor (s : ThreadState) : Bool × ThreadState :=
  (s.disabled, { s with disabled := true })

/-- Embeds `FaultInjectionDisable::reset()` (also run by the destructor):
`disabled = was_disabled`. -/
def faultInjectionDisableReset (was_disabled : Bool) (s : ThreadState) : ThreadState :=
  { s with disabled := was_disabled }

/-- The value of `sizeof(void*)` on the tested platform. -/
def sizeofVoidPtr : Nat := 8

/-- Embeds `injected_allocate(count, alignment)`: first consults
`should_inject_fault` and throws `std::bad_alloc` (`Except.error ()`) when
a fault is scheduled; otherwise delegates to the real allocator
(`std::aligned_alloc`, abstracted as `realAlloc alignment size`, `none`
modelling a null return) with alignment `max(alignment, sizeof(void*))`
and size `lcm(count, sizeof(void*))`, and throws `std::bad_alloc` when the
real allocator returns null. -/
def injected_allocate (realAlloc : Nat → Nat → Option Nat) (s : ThreadState)
    (count alignment : Nat) : Except Unit Nat × ThreadState :=
  let r := should_inject_fault_full s
  if r.1 then (Except.error (), r.2)
  else
    match realAlloc (max alignment sizeofVoidPtr) (Nat.lcm count sizeofVoidPtr) with
    | none => (Except.error (), r.2)
    | some ptr => (Except.ok ptr, r.2)

/-- Embeds `injected_deallocate(ptr)`: `std::free(ptr)`.  The returned pair is the
(untouched) scheduler state and the free log extended by the delegated
call to the real deallocator; the function is total — it never fails. -/
def injected_deallocate (s : ThreadState) (freeLog : List Nat) (ptr : Nat) :
    ThreadState × List Nat :=
  (s, freeLog ++ [ptr])

/-- Embeds `operator new(size_t)`. -/
def operatorNew (realAlloc : Nat → Nat → Option Nat) (s : ThreadState)
    (count : Nat) : Except Unit Nat × ThreadState :=
  injected_allocate realAlloc s count 1

/-- Embeds `operator new(size_t, std::align_val_t)`. -/
def operatorNewAl (realAlloc : Nat → Nat → Option Nat) (s : ThreadState)
    (count al : Nat) : Except Unit Nat × ThreadState :=
  injected_allocate realAlloc s count al

/-- Embeds `operator new[](size_t)`. -/
def operatorNewArr (realAlloc : Nat → Nat → Option Nat) (s : ThreadState)
    (count : Nat) : Except Unit Nat × ThreadState :=
  injected_allocate realAlloc s count 1

/-- Embeds `operator new[](size_t, std::align_val_t)`. -/
def operatorNewArrAl (realAlloc : Nat → Nat → Option Nat) (s : ThreadState)
    (count al : Nat) : Except Unit Nat × ThreadState :=
  injected_allocate realAlloc s count al

/-- Embeds `operator delete(void*)`. -/
def operatorDelete (s : ThreadState) (freeLog : List Nat) (ptr : Nat) :
    ThreadState × List Nat :=
  injected_deallocate s freeLog ptr

/-- Embeds `operator delete(void*, std::align_val_t)`. -/
def operatorDeleteAl (s : ThreadState) (freeLog : List Nat) (ptr al : Nat) :
    ThreadState × List Nat :=
  injected_deallocate s freeLog ptr

/-- Embeds `operator delete(void*, size_t)`. -/
def operatorDeleteSz (s : ThreadState) (freeLog : List Nat) (ptr sz : Nat) :
    ThreadState × List Nat :=
  injected_deallocate s freeLog ptr

/-- Embeds `operator delete(void*, size_t, std::align_val_t)`. -/
def operatorDeleteSzAl (s : ThreadState) (freeLog : List Nat) (ptr sz al : Nat) :
    ThreadState × List Nat :=
  injected_deallocate s freeLog ptr

/-- Embeds `operator delete[](void*)`. -/
def operatorDeleteArr (s : ThreadState) (freeLog : List Nat) (ptr : Nat) :
    ThreadState × List Nat :=
  injected_deallocate s freeLog ptr

/-- Embeds `operator delete[](void*, std::align_val_t)`. -/
def operatorDeleteArrAl (s : ThreadState) (freeLog : List Nat) (ptr al : Nat) :
    ThreadState × List Nat :=
  injected_deallocate s freeLog ptr

/-- Embeds `operator delete[](void*, size_t)`. -/
def operatorDeleteArrSz (s : ThreadState) (freeLog : List Nat) (ptr sz : Nat) :
    ThreadState × List Nat :=
  injected_deallocate s freeLog ptr

/-- Embeds `operator delete[](void*, size_t, std::align_val_t)`. -/
def operatorDeleteArrSzAl (s : ThreadState) (freeLog : List Nat) (ptr sz al : Nat) :
    ThreadState × List Nat :=
  injected_deallocate s freeLog ptr

/-- The condition of the `static_assert` inside `ct::Vector<T>`
(`src/src/vector.h:10`):
`std::is_nothrow_move_constructible_v<T> || std::is_copy_constructible_v<T>`,
as a function of the two type traits of `T`.  Instantiating `Vector<T>`
is rejected at compile time iff this is `false`. -/
def vectorStaticAssertCond (nothrowMoveConstructible copyConstructible : Bool) : Bool :=
  nothrowMoveConstructible || copyConstructible

/-- Modelled from the spec: the observable state of the container
`ct::Vector` (its member definitions are absent from `src/`; only the
declarations in `src/src/vector.h` are present) — the identity of the
owned buffer (`none` = `data() == nullptr`), the live element sequence
(`size()` is its length) and `capacity()`. -/
structure Vec where
  bufId : Option Nat
  elems : List Int
  cap : Nat
deriving DecidableEq, Repr

def Vec.size (v : Vec) : Nat := v.elems.length

/-- The container invariant from the spec's data model:
`data() == nullptr` iff `capacity == 0`, and `size ≤ capacity`. -/
def Vec.wf (v : Vec) : Prop := (v.bufId = none ↔ v.cap = 0) ∧ v.size ≤ v.cap

/-- Modelled from the spec: `Vector(Vector&& other)` — "O(1), never fails;
takes ownership of `other`'s buffer, size, capacity; leaves `other` in the
empty state (no buffer, size 0, capacity 0)".  Returns the destination,
the source's new state, and the number of element copies performed.  The
function is total and consults no fault oracle: it cannot fail. -/
def moveCreate (src : Vec) : Vec × Vec × Nat :=
  (src, { bufId := none, elems := [], cap := 0 }, 0)

/-- Modelled from the spec: copy-constructing the element sequence `xs`
into a new buffer, one element at a time, starting at fallible step `i`
of the enclosing operation.  `fs` is the operation's fault schedule
(`fs j = true`: the `j`-th fallible step throws).  `none`: one of the
copies threw — the cleanup path destroys the already-copied prefix and
frees the new buffer before the exception propagates. -/
def copyRange (fs : Nat → Bool) : Nat → List Int → Option (List Int)
  | _, [] => some []
  | i, x :: xs => if fs i then none else (copyRange fs (i + 1) xs).map (x :: ·)

/-- A fresh buffer identity, distinct from the container's current one. -/
def freshBuf (v : Vec) : Nat := v.bufId.getD 0 + 1

/-- The strong-guarantee operations of C2, with their arguments. -/
inductive VecOp where
  | copyCreate
  | copyAssign (other : Vec)
  | reserveOp (n : Nat)
  | shrinkToFit
  | pushBack (x : Int)
  | insertAt (i : Nat) (x : Int)
deriving DecidableEq, Repr

/-- Outcome of an operation, carrying the observable post-state of the
observed container: `ok` = returned normally, `thrown` = an exception
propagated out of the call (the carried state is what a pre-call snapshot
is compared against after the throw). -/
inductive OpResult where
  | ok (v : Vec)
  | thrown (v : Vec)
deriving DecidableEq, Repr

/-- Modelled from the spec (§4.1): each strong-guarantee operation against
a fault schedule `fs`, observing container `v` (`*this` for the mutating
operations; the source for copy construction).  All reallocating paths
follow the spec's allocate-new-buffer / copy-in-order / swap-on-success
scheme: step 0 is the allocation, steps `1, 2, …` the element copies; on
any failure the partially built buffer is discarded and `v` is left
untouched. -/
def applyVecOp : VecOp → (Nat → Bool) → Vec → OpResult
  | .copyCreate, fs, v =>
    if v.elems.isEmpty then .ok v
    else if fs 0 then .thrown v
    else match copyRange fs 1 v.elems with
      | none => .thrown v
      | some _ => .ok v
  | .copyAssign other, fs, v =>
    if other.elems.isEmpty then .ok { bufId := none, elems := [], cap := 0 }
    else if fs 0 then .thrown v
    else match copyRange fs 1 other.elems with
      | none => .thrown v
      | some es => .ok { bufId := some (freshBuf v), elems := es, cap := es.length }
  | .reserveOp n, fs, v =>
    if n ≤ v.cap then .ok v
    else if fs 0 then .thrown v
    else match copyRange fs 1 v.elems with
      | none => .thrown v
      | some es => .ok { bufId := some (freshBuf v), elems := es, cap := n }
  | .shrinkToFit, fs, v =>
    if v.cap = v.size then .ok v
    else if v.size = 0 then .ok { bufId := none, elems := [], cap := 0 }
    else if fs 0 then .thrown v
    else match copyRange fs 1 v.elems with
      | none => .thrown v
      | some es => .ok { bufId := some (freshBuf v), elems := es, cap := v.size }
  | .pushBack x, fs, v =>
    if v.size < v.cap then
      if fs 0 then .thrown v else .ok { v with elems := v.elems ++ [x] }
    else if fs 0 then .thrown v
    else match copyRange fs 1 (v.elems ++ [x]) with
      | none => .thrown v
      | some es =>
        .ok { bufId := some (freshBuf v), elems := es, cap := max 1 (2 * v.cap) }
  | .insertAt i x, fs, v =>
    if fs 0 then .thrown v
    else match copyRange fs 1 (v.elems.take i ++ [x] ++ v.elems.drop i) with
      | none => .thrown v
      | some es =>
        .ok { bufId := some (freshBuf v), elems := es,
              cap := if v.size < v.cap then v.cap else max 1 (2 * v.cap) }

/-- The thread-local harness state extended with the flag behind
`move_throw_disabled()`.  The flag and the `FaultInjectionMoveThrowDisable`
guard are declared in `src/test/fault-injection.h` but defined nowhere
under `src/`; the flag field and the guard bodies are modelled from the
spec below, while `should_inject_fault` and the `Element` move operations
are embedded from the source. -/
structure HarnessState where
  disabled : Bool
  moveThrowDisabledFlag : Bool
  context : Option FaultInjectionContext
deriving DecidableEq, Repr

/-- Modelled from the spec: `move_throw_disabled()` (declared
`fault-injection.h:13`, undefined under `src/`) reads the suppression
flag. -/
def move_throw_disabled (s : HarnessState) : Bool := s.moveThrowDisabledFlag

/-- Modelled from the spec: the `FaultInjectionMoveThrowDisable`
constructor (declared `fault-injection.h:32`, undefined under `src/`) —
saves the prior flag (header field `was_enabled`) and sets it for the
guard's extent. -/
def moveThrowDisableCtor (s : HarnessState) : Bool × HarnessState :=
  (s.moveThrowDisabledFlag, { s with moveThrowDisabledFlag := true })

/-- Modelled from the spec: the guard's destructor restores the saved
flag. -/
def moveThrowDisableReset (was : Bool) (s : HarnessState) : HarnessState :=
  { s with moveThrowDisabledFlag := was }

/-- Embeds `ct::test::should_inject_fault` over the extended state.  The source
consults only `context` and `disabled`; `move_throw_disabled` is consulted
nowhere in `src/`. -/
def should_inject_fault_h (s : HarnessState) : Bool × HarnessState :=
  match s.context with
  | none => (false, s)
  | some c =>
    if s.disabled then (false, s)
    else
      let r := should_inject_fault_ctx c
      (r.1, { s with context := some r.2 })

/-- Embeds `ct::test::fault_injection_point()` (fault-injection.cpp:158-163):
throws `InjectedFault` iff `should_inject_fault()` returns `true`.  The
returned `Bool` is "threw". -/
def fault_injection_pt (s : HarnessState) : Bool × HarnessState :=
  should_inject_fault_h s

/-- Embeds `Element::Element(Element&&)` (element.cpp:111-114): the move
constructor calls `fault_injection_point()` unconditionally — it does not
consult `move_throw_disabled`.  The returned `Bool` is "the move
construction failed with an injected fault". -/
def elementMoveConstruct (s : HarnessState) : Bool × HarnessState :=
  fault_injection_pt s

lemma ctxInv_initial : CtxInv initialContext := by
  refine ⟨Nat.le_refl 0, ?_, ?_⟩ <;> simp [initialContext]

lemma ctxInv_step (c : FaultInjectionContext) (h : CtxInv c) :
    CtxInv (should_inject_fault_ctx c).2 := by
  obtain ⟨h1, h2, h3⟩ := h
  unfold should_inject_fault_ctx
  split
  · rename_i heq
    refine ⟨?_, ?_, ?_⟩ <;> simp [heq]
  · split
    · rename_i hne heq
      have hlt : c.error_index < c.skip_ranges.length := Nat.lt_of_le_of_ne h1 hne
      exact ⟨hlt, fun _ => Nat.zero_le _, fun _ => Nat.le_add_left 1 c.error_index⟩
    · rename_i hne hneq
      have hlt : c.error_index < c.skip_ranges.length := Nat.lt_of_le_of_ne h1 hne
      refine ⟨h1, fun _ => ?_, h3⟩
      have := h2 hlt
      exact Nat.succ_le_of_lt (Nat.lt_of_le_of_ne this hneq)

lemma ctxInv_handler (c c' : FaultInjectionContext)
    (hc : faultyRunCatch c = some c') : CtxInv c' := by
  unfold faultyRunCatch at hc
  rcases hlast : (resizeList c.skip_ranges c.error_index).getLast? with _ | last
  · simp [hlast] at hc
  · simp only [hlast] at hc
    split at hc
    · cases hc
      refine ⟨Nat.zero_le _, fun _ => Nat.zero_le _, ?_⟩
      simp
    · cases hc

/-- Every context reachable in `faulty_run` satisfies the invariant. -/
lemma reachable_ctxInv (c : FaultInjectionContext) (h : ReachableCtx c) : CtxInv c := by
  induction h with
  | init => exact ctxInv_initial
  | step c _ ih => exact ctxInv_step c ih
  | handler c c' _ hc _ => exact ctxInv_handler c c' hc

lemma runChecks_skip (n : Nat) : ∀ s j : Nat, s + n ≤ j →
    runChecks n { skip_ranges := [j], error_index := 0, skip_index := s,
                  fault_registered := false } =
      (none, { skip_ranges := [j], error_index := 0, skip_index := s + n,
               fault_registered := false }) := by
  induction n with
  | zero => intro s j _; simp [runChecks]
  | succ n ih =>
    intro s j hle
    have hs : s < j := by omega
    have hsif : should_inject_fault_ctx
        { skip_ranges := [j], error_index := 0, skip_index := s,
          fault_registered := false } =
        (false, { skip_ranges := [j], error_index := 0, skip_index := s + 1,
                  fault_registered := false }) := by
      unfold should_inject_fault_ctx
      simp [Nat.ne_of_lt hs]
    have hrec := ih (s + 1) j (by omega)
    simp only [runChecks, hsif]
    simp [hrec]
    omega

lemma runChecks_fire (n : Nat) : ∀ s j : Nat, s ≤ j → j + 1 ≤ s + n →
    runChecks n { skip_ranges := [j], error_index := 0, skip_index := s,
                  fault_registered := false } =
      (some (j + 1 - s), { skip_ranges := [j], error_index := 1, skip_index := 0,
                           fault_registered := true }) := by
  induction n with
  | zero => intro s j hle hgt; omega
  | succ n ih =>
    intro s j hle hgt
    rcases Nat.eq_or_lt_of_le hle with heq | hlt
    · subst heq
      have hsif : should_inject_fault_ctx
          { skip_ranges := [s], error_index := 0, skip_index := s,
            fault_registered := false } =
          (true, { skip_ranges := [s], error_index := 1, skip_index := 0,
                   fault_registered := true }) := by
        unfold should_inject_fault_ctx
        simp
      simp [runChecks, hsif]
    · have hsif : should_inject_fault_ctx
          { skip_ranges := [j], error_index := 0, skip_index := s,
            fault_registered := false } =
          (false, { skip_ranges := [j], error_index := 0, skip_index := s + 1,
                    fault_registered := false }) := by
        unfold should_inject_fault_ctx
        simp [Nat.ne_of_lt hlt]
      have hrec := ih (s + 1) j (by omega) (by omega)
      simp only [runChecks, hsif]
      simp [hrec]
      omega

lemma runChecks_initial (n : Nat) (h : 1 ≤ n) :
    runChecks n initialContext =
      (some 1, { skip_ranges := [0], error_index := 1, skip_index := 0,
                 fault_registered := true }) := by
  cases n with
  | zero => omega
  | succ m =>
    have hsif : should_inject_fault_ctx initialContext =
        (true, { skip_ranges := [0], error_index := 1, skip_index := 0,
                 fault_registered := true }) := by
      unfold should_inject_fault_ctx initialContext
      simp
    simp [runChecks, hsif]

lemma faultyRunCatch_fire (j : Nat) :
    faultyRunCatch { skip_ranges := [j], error_index := 1, skip_index := 0,
                     fault_registered := true } =
      some (passStart (j + 1)) := by
  simp [faultyRunCatch, resizeList, passStart]

lemma mapRange_shift (j m : Nat) :
    (List.range (m + 1)).map (fun i => some (j + i + 1)) =
      some (j + 1) :: (List.range m).map (fun i => some (j + 1 + i + 1)) := by
  rw [List.range_succ_eq_map, List.map_cons, List.map_map]
  have htail : ∀ i ∈ List.range m,
      ((fun i => some (j + i + 1)) ∘ Nat.succ) i = some (j + 1 + i + 1) := by
    intro i _
    simp only [Function.comp_apply, Option.some.injEq]
    omega
  rw [List.map_congr_left htail]

lemma faultyRunTrace_passes (m : Nat) : ∀ fuel j : Nat, m + 1 ≤ fuel →
    faultyRunTrace (j + m) fuel (passStart j) =
      some ((List.range m).map (fun i => some (j + i + 1)) ++ [none]) := by
  induction m with
  | zero =>
    intro fuel j hfuel
    cases fuel with
    | zero => omega
    | succ f =>
      have hrun : runChecks j (passStart j) =
          (none, { skip_ranges := [j], error_index := 0, skip_index := j,
                   fault_registered := false }) := by
        have := runChecks_skip j 0 j (by omega)
        simpa [passStart] using this
      simp [faultyRunTrace, hrun]
  | succ m ih =>
    intro fuel j hfuel
    cases fuel with
    | zero => omega
    | succ f =>
      have hrun : runChecks (j + (m + 1)) (passStart j) =
          (some (j + 1), { skip_ranges := [j], error_index := 1, skip_index := 0,
                           fault_registered := true }) := by
        have := runChecks_fire (j + (m + 1)) 0 j (Nat.zero_le j) (by omega)
        simpa [passStart] using this
      have hrec := ih f (j + 1) (by omega)
      have hk : j + 1 + m = j + (m + 1) := by omega
      rw [hk] at hrec
      simp only [faultyRunTrace, hrun, faultyRunCatch_fire, hrec, Option.map_some']
      congr 1
      rw [mapRange_shift j m, List.cons_append]

lemma faultyRunTrace_succ (k fuel : Nat) (c : FaultInjectionContext) :
    faultyRunTrace k (fuel + 1) c =
      match runChecks k c with
      | (none, c') => if c'.fault_registered then none else some [none]
      | (some j, c') =>
        match faultyRunCatch c' with
        | none => none
        | some c'' => (faultyRunTrace k fuel c'').map (fun t => some j :: t) := rfl

lemma mapRange_shift0 (m : Nat) :
    (List.range (m + 1)).map (fun i => some (i + 1)) =
      some 1 :: (List.range m).map (fun i => some (1 + i + 1)) := by
  rw [List.range_succ_eq_map, List.map_cons, List.map_map]
  have htail : ∀ i ∈ List.range m,
      ((fun i => some (i + 1)) ∘ Nat.succ) i = some (1 + i + 1) := by
    intro i _
    simp only [Function.comp_apply, Option.some.injEq]
    omega
  rw [List.map_congr_left htail]

/-- Claim C1: for an operation `f` performing the same fixed sequence of
exactly `k` fault-injection checks on every pass, `faulty_run(f)` executes
`f` exactly `k + 1` times: the trace of passes is
`[throw at check 1, throw at check 2, …, throw at check k, completed]`,
so each of the first `k` passes throws at a distinct, previously-unseen
failure point, in order of first discovery, the final pass completes
(reaching the trace entry `none` requires `fault_registered = false`, i.e.
no fault was registered on that pass), and the loop then returns. -/
theorem faulty_run_exhaustive_coverage (k : Nat) :
    faultyRunTrace k (k + 2) initialContext =
      some ((List.range k).map (fun i => some (i + 1)) ++ [none]) := by
  cases k with
  | zero => simp [faultyRunTrace, runChecks, initialContext]
  | succ k =>
    have hrun := runChecks_initial (k + 1) (by omega)
    have hcatch : faultyRunCatch
        { skip_ranges := [0], error_index := 1, skip_index := 0,
          fault_registered := true } = some (passStart 1) := faultyRunCatch_fire 0
    have hrec := faultyRunTrace_passes k (k + 2) 1 (by omega)
    have hk : 1 + k = k + 1 := by omega
    rw [hk] at hrec
    show faultyRunTrace (k + 1) ((k + 2) + 1) initialContext = _
    rw [faultyRunTrace_succ, hrun]
    simp only [hcatch, hrec, Option.map_some']
    congr 1
    rw [mapRange_shift0 k, List.cons_append]

/-- Claim C6: in every context state arising inside `faulty_run` — the fresh
context, the state after each call to `should_inject_fault`, and the state
after each catch-handler step — `error_index ≤ length skip_ranges`, and
whenever `error_index < length skip_ranges`,
`skip_index ≤ skip_ranges[error_index]`. -/
theorem scheduler_state_invariant (c : FaultInjectionContext) (h : ReachableCtx c) :
    c.error_index ≤ c.skip_ranges.length ∧
      (c.error_index < c.skip_ranges.length →
        c.skip_index ≤ c.skip_ranges.getD c.error_index 0) :=
  ⟨(reachable_ctxInv c h).1, (reachable_ctxInv c h).2.1⟩

/-- Witness for `scheduler_state_invariant`: the invariant holds at the
context produced by the first `should_inject_fault` call of a run. -/
theorem scheduler_state_invariant_witness :
    (should_inject_fault_ctx initialContext).2.error_index ≤
        (should_inject_fault_ctx initialContext).2.skip_ranges.length ∧
      ((should_inject_fault_ctx initialContext).2.error_index <
          (should_inject_fault_ctx initialContext).2.skip_ranges.length →
        (should_inject_fault_ctx initialContext).2.skip_index ≤
          (should_inject_fault_ctx initialContext).2.skip_ranges.getD
            (should_inject_fault_ctx initialContext).2.error_index 0) :=
  scheduler_state_invariant _ (ReachableCtx.step _ ReachableCtx.init)

lemma resizeList_length_of_le (l : List Nat) (n : Nat) (h : n ≤ l.length) :
    (resizeList l n).length = n := by
  simp [resizeList]
  omega

/-- Claim C9: the catch handler of `faulty_run` is safe exactly under the
precondition the claim states: for every context reachable inside
`faulty_run`, if `fault_registered` is set when the exception reaches the
handler then the truncated `skip_ranges` is nonempty, so
`++skip_ranges.back()` accesses an existing element and the handler
completes; whereas with `error_index == 0` the truncated sequence is empty
and `back()` would be an access into an empty vector. -/
theorem faulty_run_catch_handler_safety (c : FaultInjectionContext) :
    (ReachableCtx c → c.fault_registered = true →
      faultyRunCatchList c ≠ [] ∧ faultyRunCatch c ≠ none) ∧
    (c.error_index = 0 → faultyRunCatchList c = []) := by
  constructor
  · intro hr hfr
    obtain ⟨hle, _, hfr1⟩ := reachable_ctxInv c hr
    have h1 := hfr1 hfr
    have hlen : (faultyRunCatchList c).length = c.error_index := by
      simpa [faultyRunCatchList] using resizeList_length_of_le _ _ hle
    have hne : faultyRunCatchList c ≠ [] := by
      intro habs
      rw [habs] at hlen
      simp at hlen
      omega
    refine ⟨hne, ?_⟩
    simp only [faultyRunCatch]
    have : (resizeList c.skip_ranges c.error_index).getLast?.isSome := by
      rw [List.getLast?_isSome]
      simpa [faultyRunCatchList] using hne
    obtain ⟨last, hlast⟩ := Option.isSome_iff_exists.mp this
    rw [hlast]
    simp [hfr]
  · intro h0
    simp [faultyRunCatchList, resizeList, h0]

/-- Witness for `faulty_run_catch_handler_safety`: after the first
`should_inject_fault` call of a run, a fault is registered and the handler
is safe. -/
theorem faulty_run_catch_handler_safety_witness :
    faultyRunCatchList (should_inject_fault_ctx initialContext).2 ≠ [] ∧
      faultyRunCatch (should_inject_fault_ctx initialContext).2 ≠ none :=
  (faulty_run_catch_handler_safety _).1
    (ReachableCtx.step _ ReachableCtx.init) (by decide)

lemma sif_error_index_step (c : FaultInjectionContext) :
    (should_inject_fault_ctx c).2.error_index =
      c.error_index + (if (should_inject_fault_ctx c).1 then 1 else 0) := by
  unfold should_inject_fault_ctx
  split
  · simp
  · split <;> simp

lemma sifCalls_error_index (n : Nat) : ∀ c : FaultInjectionContext,
    (sifCalls n c).2.error_index = c.error_index + ((sifCalls n c).1.count true) := by
  induction n with
  | zero => intro c; simp [sifCalls]
  | succ n ih =>
    intro c
    simp only [sifCalls, List.count_cons]
    rw [ih (should_inject_fault_ctx c).2, sif_error_index_step c]
    rcases h : (should_inject_fault_ctx c).1
    · simp [h]
    · simp [h]
      omega

lemma treatedAsNew_iff_error_index (c : FaultInjectionContext) :
    TreatedAsNewFailurePoint c ↔ c.error_index = c.skip_ranges.length := by
  by_cases h : c.error_index = c.skip_ranges.length
  · unfold TreatedAsNewFailurePoint should_inject_fault_ctx
    simp [h]
  · constructor
    · rintro ⟨-, h2, -⟩
      exfalso
      unfold should_inject_fault_ctx at h2
      rw [if_neg h] at h2
      split at h2 <;>
        · have := congrArg List.length h2
          simp at this
    · intro hh
      exact absurd hh h

/-- Claim C4, amended: in `should_inject_fault` with a scheduler active and
injection enabled, a call is treated as a newly discovered failure point
(recorded in `skip_ranges`, `fault_registered` set, `true` returned)
exactly when `e` equals `length(skip_ranges)`, where `e = error_index` is
the number of prior calls to this check *that injected a fault* (returned
`true`) within the current pass — not the number of all prior calls. -/
theorem should_inject_fault_new_point_condition (sr0 : List Nat) (n : Nat) :
    (sifCalls n ⟨sr0, 0, 0, false⟩).2.error_index =
        ((sifCalls n ⟨sr0, 0, 0, false⟩).1.count true) ∧
      (TreatedAsNewFailurePoint (sifCalls n ⟨sr0, 0, 0, false⟩).2 ↔
        (sifCalls n ⟨sr0, 0, 0, false⟩).2.error_index =
          (sifCalls n ⟨sr0, 0, 0, false⟩).2.skip_ranges.length) := by
  constructor
  · simpa using sifCalls_error_index n ⟨sr0, 0, 0, false⟩
  · exact treatedAsNew_iff_error_index _

/-- Counterexample to claim C4 as stated: the claim as stated — newly-discovered exactly
when the number of *all* prior calls within the pass equals
`length(skip_ranges)` — is false: starting a pass with `skip_ranges = [1]`
(reachable as pass 2 of any run with at least two checks), after `1` prior
call the number of prior calls equals `length(skip_ranges) = 1`, yet the
next call is *not* treated as a newly discovered failure point (it fires
through the recorded branch and appends nothing to `skip_ranges`). -/
theorem should_inject_fault_new_point_claim_false :
    ¬(TreatedAsNewFailurePoint (sifCalls 1 (passStart 1)).2 ↔
        1 = (sifCalls 1 (passStart 1)).2.skip_ranges.length) := by
  decide

/-- Claim C8: while a `FaultInjectionDisable` guard is alive
(`disabled = true`), `should_inject_fault` returns `false` and leaves the
whole thread state unchanged; destroying a guard restores `disabled` to
the value it had when the guard was constructed, whatever happened in
between (state `t` at destruction time); and destroying the inner of two
nested guards sets `disabled` back to `true` — the enclosing guard's
suppression — rather than unconditionally re-enabling injection. -/
theorem fault_injection_disable_guard (s t u : ThreadState) :
    (s.disabled = true → should_inject_fault_full s = (false, s)) ∧
    ((faultInjectionDisableCtor s).2.disabled = true) ∧
    (faultInjectionDisableReset (faultInjectionDisableCtor s).1 t =
      { t with disabled := s.disabled }) ∧
    (faultInjectionDisableReset
        (faultInjectionDisableCtor (faultInjectionDisableCtor s).2).1 u =
      { u with disabled := true }) := by
  refine ⟨?_, rfl, rfl, rfl⟩
  intro hd
  unfold should_inject_fault_full
  cases s.context <;> simp [hd]

/-- Witness for `fault_injection_disable_guard`: with the guard alive over
an installed fresh context, `should_inject_fault` is a no-op returning
`false`. -/
theorem fault_injection_disable_guard_witness :
    should_inject_fault_full { disabled := true, context := some initialContext } =
      (false, { disabled := true, context := some initialContext }) :=
  (fault_injection_disable_guard
    { disabled := true, context := some initialContext }
    { disabled := true, context := some initialContext }
    { disabled := true, context := some initialContext }).1 rfl

/-- Claim C7: every global allocation entry point (the four `operator new` /
`operator new[]` overloads) goes through `injected_allocate`, which
consults the Fault Scheduler first and reports out-of-memory
(`std::bad_alloc`, here `Except.error ()`) when a fault is scheduled or
when the real allocator returns null, and hands the real allocator's block
through otherwise; every deallocation entry point (the eight
`operator delete` / `operator delete[]` overloads) delegates directly to
the real deallocator (`std::free`), leaves the scheduler state untouched,
and never fails. -/
theorem allocation_hook_routing (realAlloc : Nat → Nat → Option Nat)
    (s : ThreadState) (freeLog : List Nat) (count al ptr sz p : Nat) :
    (operatorNew realAlloc s count = injected_allocate realAlloc s count 1 ∧
     operatorNewAl realAlloc s count al = injected_allocate realAlloc s count al ∧
     operatorNewArr realAlloc s count = injected_allocate realAlloc s count 1 ∧
     operatorNewArrAl realAlloc s count al = injected_allocate realAlloc s count al) ∧
    ((should_inject_fault_full s).1 = true →
      (injected_allocate realAlloc s count al).1 = Except.error ()) ∧
    (realAlloc (max al sizeofVoidPtr) (Nat.lcm count sizeofVoidPtr) = none →
      (injected_allocate realAlloc s count al).1 = Except.error ()) ∧
    ((should_inject_fault_full s).1 = false →
      realAlloc (max al sizeofVoidPtr) (Nat.lcm count sizeofVoidPtr) = some p →
      (injected_allocate realAlloc s count al).1 = Except.ok p) ∧
    (operatorDelete s freeLog ptr = (s, freeLog ++ [ptr]) ∧
     operatorDeleteAl s freeLog ptr al = (s, freeLog ++ [ptr]) ∧
     operatorDeleteSz s freeLog ptr sz = (s, freeLog ++ [ptr]) ∧
     operatorDeleteSzAl s freeLog ptr sz al = (s, freeLog ++ [ptr]) ∧
     operatorDeleteArr s freeLog ptr = (s, freeLog ++ [ptr]) ∧
     operatorDeleteArrAl s freeLog ptr al = (s, freeLog ++ [ptr]) ∧
     operatorDeleteArrSz s freeLog ptr sz = (s, freeLog ++ [ptr]) ∧
     operatorDeleteArrSzAl s freeLog ptr sz al = (s, freeLog ++ [ptr])) := by
  refine ⟨⟨rfl, rfl, rfl, rfl⟩, ?_, ?_, ?_, rfl, rfl, rfl, rfl, rfl, rfl, rfl, rfl⟩
  · intro hfire
    simp [injected_allocate, hfire]
  · intro hnull
    unfold injected_allocate
    rcases hf : (should_inject_fault_full s).1
    · simp [hf, hnull]
    · simp [hf]
  · intro hf hsome
    simp [injected_allocate, hf, hsome]

/-- Witness for `allocation_hook_routing`: a scheduled fault makes
`operator new` report out-of-memory, and with no fault scheduled the real
allocator's block is returned. -/
theorem allocation_hook_routing_witness :
    (injected_allocate (fun _ _ => some 7)
        { disabled := false, context := some initialContext } 16 1).1 =
      Except.error () ∧
    (injected_allocate (fun _ _ => some 7)
        { disabled := true, context := some initialContext } 16 1).1 =
      Except.ok 7 ∧
    (injected_allocate (fun _ _ => none)
        { disabled := true, context := some initialContext } 16 1).1 =
      Except.error () :=
  ⟨(allocation_hook_routing (fun _ _ => some 7)
      { disabled := false, context := some initialContext } [] 16 1 0 0 7).2.1
        (by decide),
   (allocation_hook_routing (fun _ _ => some 7)
      { disabled := true, context := some initialContext } [] 16 1 0 0 7).2.2.2.1
        (by decide) rfl,
   (allocation_hook_routing (fun _ _ => none)
      { disabled := true, context := some initialContext } [] 16 1 0 0 7).2.2.1
        rfl⟩

/-- Claim C10: the `static_assert` in `ct::Vector` rejects exactly the
element types that are neither nothrow-move-constructible nor
copy-constructible, so `Vector<T>` can only be instantiated for `T`
satisfying at least one of the two traits — an element-type precondition
the spec never states. -/
theorem vector_element_type_precondition (m c : Bool) :
    vectorStaticAssertCond m c = false ↔ (m = false ∧ c = false) := by
  cases m <;> cases c <;> simp [vectorStaticAssertCond]

/-- Claim C5 (spec-modelled): the move constructor takes ownership of the
source's buffer, elements and capacity (the destination is exactly the
source's prior state, same buffer identity), performs zero element copies,
and leaves the source empty (`data() == nullptr`, `size() == 0`,
`capacity() == 0`); well-formedness is preserved on both sides. -/
theorem vector_move_ctor_spec (v : Vec) :
    (moveCreate v).1 = v ∧
    (moveCreate v).2.1.bufId = none ∧
    (moveCreate v).2.1.size = 0 ∧
    (moveCreate v).2.1.cap = 0 ∧
    (moveCreate v).2.2 = 0 ∧
    (Vec.wf v → Vec.wf (moveCreate v).1 ∧ Vec.wf (moveCreate v).2.1) := by
  refine ⟨rfl, rfl, rfl, rfl, rfl, fun h => ⟨h, ?_, ?_⟩⟩ <;>
    simp [moveCreate, Vec.size]

/-- Witness for `vector_move_ctor_spec` at a concrete well-formed
container. -/
theorem vector_move_ctor_spec_witness :
    Vec.wf (moveCreate { bufId := some 1, elems := [5], cap := 2 }).1 ∧
      Vec.wf (moveCreate { bufId := some 1, elems := [5], cap := 2 }).2.1 :=
  (vector_move_ctor_spec { bufId := some 1, elems := [5], cap := 2 }).2.2.2.2.2
    ⟨by simp, by simp [Vec.size]⟩

/-- Claim C2 (spec-modelled): for every operation documented with the strong
guarantee — copy construction, copy assignment, reserve, shrink_to_fit,
push_back, insert — if the operation throws, the observed container's
buffer identity, element values (hence size) and capacity afterwards are
exactly what they were before the call. -/
theorem strong_guarantee_ops (op : VecOp) (fs : Nat → Bool) (v w : Vec)
    (h : applyVecOp op fs v = OpResult.thrown w) : w = v := by
  cases op <;> simp only [applyVecOp] at h <;> (repeat' split at h) <;>
    first
      | (injection h with h1
         exact h1.symm)
      | injection h

/-- Witness for `strong_guarantee_ops`: a `push_back` whose very first
fallible step throws leaves the container untouched. -/
theorem strong_guarantee_ops_witness :
    applyVecOp (VecOp.pushBack 5) (fun _ => true)
        { bufId := some 1, elems := [3], cap := 1 } =
      OpResult.thrown { bufId := some 1, elems := [3], cap := 1 } ∧
    ({ bufId := some 1, elems := [3], cap := 1 } : Vec) =
      { bufId := some 1, elems := [3], cap := 1 } :=
  ⟨by decide,
   strong_guarantee_ops (VecOp.pushBack 5) (fun _ => true)
     { bufId := some 1, elems := [3], cap := 1 }
     { bufId := some 1, elems := [3], cap := 1 } (by decide)⟩

/-- Claim C3 fails on the code: with a `FaultInjectionMoveThrowDisable`
guard alive (`move_throw_disabled()` returns `true`) over an active
scheduler with a fresh context, an `Element` move construction still
throws an injected fault, because `Element::Element(Element&&)` calls
`fault_injection_point()` unconditionally and nothing under `src/`
consults `move_throw_disabled`. -/
theorem move_guard_does_not_suppress_element_move :
    move_throw_disabled
        (moveThrowDisableCtor
          { disabled := false, moveThrowDisabledFlag := false,
            context := some initialContext }).2 = true ∧
    (elementMoveConstruct
        (moveThrowDisableCtor
          { disabled := false, moveThrowDisabledFlag := false,
            context := some initialContext }).2).1 = true := by
  decide


end VectorTask

